import Mathlib

/-!
Verification of the two-pass graph-insight validation pipeline of
`backend/main.py` (FastAPI service around a generative-model gateway and a
SQL history table).

Shallow embedding conventions:
* Parsed JSON documents (the results of `json.loads`) are `JVal` values.
* Python exceptions are modelled by the `Py` monad (`Except String`); an
  exception that escapes a request handler becomes an HTTP 500.
* The database session is an explicit `Session` state: `committed` rows are
  visible to queries, `add` appends to `pending`, `commit` publishes the
  pending rows and counts itself.  `extracted_at` timestamps come from a
  logical clock that advances at each commit, matching the server-side
  `func.now()` default (one transaction timestamp per commit).
* The external Model Gateway (Gemini) is an oracle `GatewayResult`: the call
  either raises, or returns text that fails `json.loads`, or returns text
  that parses to a given `JVal`.
* Domain restrictions of the embedding (documented, outside every claim's
  scope): extracted-data items are JSON values; membership tests and `.get`
  on a non-object item raise; a `category` value that is not a string and a
  `value` that is not a JSON number/boolean raise where the Python code
  would hit a type or conversion error (string/DB-column typing,
  `float(...)`).  The `source_graph_hash` column (an opaque digest of the
  stringified point, never read back by any code path or claim) is omitted
  from the row model.
-/

namespace GraphAnalysis

/-- JSON values, the result of a successful `json.loads`. -/
inductive JVal where
  | null : JVal
  | bool : Bool → JVal
  | num : ℚ → JVal
  | str : String → JVal
  | arr : List JVal → JVal
  | obj : List (String × JVal) → JVal

/-- Association-list lookup, the semantics of `d[k]` / `d.get(k)` on a
parsed JSON object (keys of a parsed JSON object are distinct). -/
def lookupKV : List (String × JVal) → String → Option JVal
  | [], _ => none
  | (k, v) :: rest, key => if k = key then some v else lookupKV rest key

/-- The keys of a JSON object, in order. -/
def JVal.objKeys : JVal → List String
  | .obj kvs => kvs.map Prod.fst
  | _ => []

/-- Python truthiness of a JSON value (`if not x`). -/
def truthy : JVal → Bool
  | .null => false
  | .bool b => b
  | .num q => !(q == 0)
  | .str s => !(s == "")
  | .arr xs => !xs.isEmpty
  | .obj kvs => !kvs.isEmpty

/-- Python computations that can raise: `Except` with the exception text. -/
abbrev Py (α : Type) : Type := Except String α

/-- `d.get(key, default)`: raises on a non-object (`AttributeError`). -/
def dictGet : JVal → String → JVal → Py JVal
  | .obj kvs, k, dflt => .ok ((lookupKV kvs k).getD dflt)
  | _, _, _ => .error "AttributeError: object has no attribute get"

/-- `key in d` on a data point: key membership on an object, raises
otherwise (the code only ever applies it to extracted data points). -/
def keyIn (k : String) : JVal → Py Bool
  | .obj kvs => .ok (lookupKV kvs k).isSome
  | _ => .error "TypeError: membership test on a non-mapping data point"

/-- `d[k]` where the result feeds a `String` column: the value must be a
string (DB column typing; a non-string would fail at flush). -/
def pyIndexStr : JVal → String → Py String
  | .obj kvs, k =>
    match lookupKV kvs k with
    | some (.str s) => .ok s
    | some _ => .error "TypeError: non-string value for a String column"
    | none => .error "KeyError"
  | _, _ => .error "TypeError: subscript on a non-mapping data point"

/-- `float(v)` on a JSON value: numbers and booleans convert, everything
else raises (numeric strings are outside the modelled domain). -/
def pyFloat : JVal → Py ℚ
  | .num q => .ok q
  | .bool b => .ok (if b then 1 else 0)
  | _ => .error "TypeError: float() conversion failed"

/-- `float(d[k])`. -/
def pyIndexFloat : JVal → String → Py ℚ
  | .obj kvs, k =>
    match lookupKV kvs k with
    | some v => pyFloat v
    | none => .error "KeyError"
  | _, _ => .error "TypeError: subscript on a non-mapping data point"

/-- Iterating `extracted_data` as a list of data points. -/
def asList : JVal → Py (List JVal)
  | .arr xs => .ok xs
  | _ => .error "TypeError: extracted_data is not a list"

/-- A row of the `graph_data_history` table (the opaque
`source_graph_hash` digest column is omitted: no code path or claim reads
it back). -/
structure HistoryRow where
  id : ℕ
  metric_name : String
  category : String
  value : ℚ
  extracted_at : ℕ
deriving DecidableEq

/-- A database session: `committed` rows are visible to queries, `pending`
rows have been `add`ed but not committed, `commits` counts commit calls,
`next_id` is the next surrogate key and `clock` the transaction timestamp
`func.now()` would assign. -/
structure Session where
  committed : List HistoryRow
  pending : List HistoryRow
  commits : ℕ
  next_id : ℕ
  clock : ℕ
deriving DecidableEq

/-- `db_session.add(GraphDataHistory(...))`. -/
def Session.add (s : Session) (m c : String) (v : ℚ) : Session :=
  { s with
    pending := s.pending ++
      [{ id := s.next_id, metric_name := m, category := c, value := v,
         extracted_at := s.clock }]
    next_id := s.next_id + 1 }

/-- `db_session.commit()`: publishes pending rows and advances the
transaction clock. -/
def Session.commit (s : Session) : Session :=
  { committed := s.committed ++ s.pending
    pending := []
    commits := s.commits + 1
    next_id := s.next_id
    clock := s.clock + 1 }

/-- The body of the loop of `store_new_data_in_db`: add a row when the
point has both a `category` and a `value` key, skip it otherwise. -/
def addPoint (m : String) (dp : JVal) (s : Session) : Py Session :=
  match keyIn "category" dp with
  | .error e => .error e
  | .ok false => .ok s
  | .ok true =>
    match keyIn "value" dp with
    | .error e => .error e
    | .ok false => .ok s
    | .ok true =>
      match pyIndexStr dp "category" with
      | .error e => .error e
      | .ok c =>
        match pyIndexFloat dp "value" with
        | .error e => .error e
        | .ok v => .ok (s.add m c v)

/-- The `for data_point in extracted_data` loop of `store_new_data_in_db`. -/
def storeLoop : List JVal → String → Session → Py Session
  | [], _, s => .ok s
  | dp :: rest, m, s =>
    match addPoint m dp s with
    | .error e => .error e
    | .ok s' => storeLoop rest m s'

/-- `store_new_data_in_db(extracted_data, metric_name, db_session)`: one
add per point carrying both keys, then a single commit. -/
def store_new_data_in_db (extracted_data : List JVal) (metric_name : String)
    (s : Session) : Py Session :=
  match storeLoop extracted_data metric_name s with
  | .error e => .error e
  | .ok s' => .ok s'.commit

/-- The constant metric name of `get_validated_insights`
(`metric_name = "general_metric"`). -/
def metric_name : String := "general_metric"

/-- The outcome of one Model Gateway call followed by `json.loads` on its
text: the call raised, or the text failed to parse, or it parsed to a
JSON value. -/
inductive GatewayResult where
  | callError : GatewayResult
  | badJson : GatewayResult
  | parsed : JVal → GatewayResult

/-- `item.get('category', '')` guarded by `'category' in item`, for one
item: `none` when the key is absent, the (string) value when present;
raises on a non-object item or a non-string category value. -/
def catOfItem : JVal → Py (Option String)
  | .obj kvs =>
    match lookupKV kvs "category" with
    | none => .ok none
    | some (.str s) => .ok (some s)
    | some _ => .error "TypeError: non-string category value"
  | _ => .error "TypeError: membership test on a non-mapping data point"

/-- The list comprehension
`[item.get('category', '') for item in extracted_data if 'category' in item]`. -/
def catsOf : List JVal → Py (List String)
  | [] => .ok []
  | it :: rest =>
    match catOfItem it with
    | .error e => .error e
    | .ok c =>
      match catsOf rest with
      | .error e => .error e
      | .ok cs => .ok (match c with | some s => s :: cs | none => cs)

/-- The historical-data query:
`query(GraphDataHistory).filter(metric_name == metric_name, category.in_(categories)).all()`. -/
def matchingHistory (categories : List String) (s : Session) : List HistoryRow :=
  s.committed.filter
    (fun r => r.metric_name == metric_name && categories.contains r.category)

/-- `get_validated_insights(initial_insights, db_session)`, with the second
Model Gateway call made explicit as the oracle `gw`.  Returns the final
insights JSON together with the session state, or the escaping
exception. -/
def get_validated_insights (gw : GatewayResult) (initial_insights : JVal)
    (db_session : Session) : Py (JVal × Session) :=
  match dictGet initial_insights "extracted_data" (JVal.arr []) with
  | .error e => .error e
  | .ok extracted_data_val =>
    -- `if not extracted_data: return initial_insights`
    if truthy extracted_data_val = false then .ok (initial_insights, db_session)
    else
      match asList extracted_data_val with
      | .error e => .error e
      | .ok extracted_data =>
        match catsOf extracted_data with
        | .error e => .error e
        | .ok categories =>
          -- `if not categories: return initial_insights`
          if categories.isEmpty then .ok (initial_insights, db_session)
          else
            -- `historical_records = db_session.query(...).all()`
            if (matchingHistory categories db_session).isEmpty then
              -- no history: store current data, return initial insights
              match store_new_data_in_db extracted_data metric_name db_session with
              | .error e => .error e
              | .ok s => .ok (initial_insights, s)
            else
              -- `try:` second gateway call, json.loads, store, return refined
              match gw with
              | .parsed final_insights =>
                match store_new_data_in_db extracted_data metric_name db_session with
                | .ok s => .ok (final_insights, s)
                | .error _ =>
                  -- `except`: store again, return the initial insights
                  match store_new_data_in_db extracted_data metric_name db_session with
                  | .error e => .error e
                  | .ok s => .ok (initial_insights, s)
              | _ =>
                -- call raised or `json.loads` failed: `except` branch
                match store_new_data_in_db extracted_data metric_name db_session with
                | .error e => .error e
                | .ok s => .ok (initial_insights, s)

/-- The `InsightResponse` pydantic model: six required fields. -/
structure InsightResponse where
  chart_type : String
  summary : String
  trends : List String
  anomalies : List String
  recommendations : List String
  extracted_data : List JVal

/-- A JSON string. -/
def asStr : JVal → Option String
  | .str s => some s
  | _ => none

/-- A JSON array of strings (`List[str]`). -/
def asStrList : JVal → Option (List String)
  | .arr xs => xs.mapM asStr
  | _ => none

/-- Whether a JSON value is an object. -/
def isObj : JVal → Bool
  | .obj _ => true
  | _ => false

/-- A JSON array of objects (`List[Dict]`). -/
def asDictList : JVal → Option (List JVal)
  | .arr xs => if xs.all isObj then some xs else none
  | _ => none

/-- `InsightResponse(**validated_insights)`: pydantic validation of the six
required fields (`none` models the raised `ValidationError` / `TypeError`). -/
def parseInsightResponse : JVal → Option InsightResponse
  | .obj kvs =>
    match (lookupKV kvs "chart_type").bind asStr with
    | none => none
    | some ct =>
      match (lookupKV kvs "summary").bind asStr with
      | none => none
      | some sm =>
        match (lookupKV kvs "trends").bind asStrList with
        | none => none
        | some tr =>
          match (lookupKV kvs "anomalies").bind asStrList with
          | none => none
          | some an =>
            match (lookupKV kvs "recommendations").bind asStrList with
            | none => none
            | some rc =>
              match (lookupKV kvs "extracted_data").bind asDictList with
              | none => none
              | some ed =>
                some { chart_type := ct, summary := sm, trends := tr,
                       anomalies := an, recommendations := rc,
                       extracted_data := ed }
  | _ => none

/-- An HTTP error response (an `HTTPException` or an unhandled server
exception surfaced by the framework as a 500). -/
structure HttpError where
  status : ℕ
  detail : String
deriving DecidableEq

/-- The shared body of the two analyze endpoints after image decoding:
extraction-pass gateway call (`ext`), `json.loads`, then
`get_validated_insights` with the validation-pass oracle `gw2`, then
`InsightResponse(**validated_insights)`.  Returns the HTTP outcome and the
final session state. -/
def analyzeCore (ext gw2 : GatewayResult) (db : Session) :
    Except HttpError InsightResponse × Session :=
  match ext with
  | .callError =>
    -- `analyze_graph_with_gemini` raises HTTPException(500, "Gemini API call failed: ...")
    (.error { status := 500, detail := "Gemini API call failed" }, db)
  | .badJson =>
    -- `json.loads` raises; HTTPException(500, "Failed to parse Gemini response: ...")
    (.error { status := 500, detail := "Failed to parse Gemini response" }, db)
  | .parsed initial_insights =>
    match get_validated_insights gw2 initial_insights db with
    | .error e =>
      -- an unhandled exception inside the validator becomes a server error
      (.error { status := 500, detail := e }, db)
    | .ok (validated_insights, db') =>
      match parseInsightResponse validated_insights with
      | none =>
        -- pydantic ValidationError while building the response model
        (.error { status := 500, detail := "Internal Server Error" }, db')
      | some resp => (.ok resp, db')

/-- `POST /api/analyze/upload` after a successful image decode. -/
def analyze_uploaded_graph (ext gw2 : GatewayResult) (db : Session) :
    Except HttpError InsightResponse × Session :=
  analyzeCore ext gw2 db

/-- `POST /api/analyze/screencap` after a successful base64/image decode. -/
def analyze_screen_capture (ext gw2 : GatewayResult) (db : Session) :
    Except HttpError InsightResponse × Session :=
  analyzeCore ext gw2 db

/-- Modelled from the spec: `datetime.isoformat` (library code not under
`src/`) renders a timestamp in ISO-8601 form; the embedding keeps it as an
injective rendering of the logical clock. -/
def isoformat (t : ℕ) : String := toString t

/-- Recency order on history rows: `a` is at least as recent as `b`
(`ORDER BY extracted_at DESC`). -/
def recencyGE (a b : HistoryRow) : Prop := b.extracted_at ≤ a.extracted_at

instance : DecidableRel recencyGE := fun a b =>
  Nat.decLe b.extracted_at a.extracted_at

instance : IsTotal HistoryRow recencyGE :=
  ⟨fun a b => Nat.le_total b.extracted_at a.extracted_at⟩

instance : IsTrans HistoryRow recencyGE :=
  ⟨fun _ _ _ hab hbc => le_trans hbc hab⟩

/-- The serialization of one history row by `GET /api/history`. -/
def serializeRow (r : HistoryRow) : JVal :=
  .obj [("id", .num (r.id : ℚ)), ("metric_name", .str r.metric_name),
        ("category", .str r.category), ("value", .num r.value),
        ("extracted_at", .str (isoformat r.extracted_at))]

/-- `GET /api/history`: the committed rows ordered by `extracted_at`
descending, limited to 100, serialized. -/
def get_historical_data (db : List HistoryRow) : List JVal :=
  ((List.insertionSort recencyGE db).take 100).map serializeRow

/-! ### Specification-side shape predicates and the row-list function -/

/-- The point is an object with a key `k`. -/
def hasKeyB (k : String) : JVal → Bool
  | .obj kvs => (lookupKV kvs k).isSome
  | _ => false

/-- The point carries both a `category` and a `value` key (the storage
condition of `store_new_data_in_db`). -/
def bothKeys (j : JVal) : Bool := hasKeyB "category" j && hasKeyB "value" j

/-- The point is an object whose `category` value, when present, is a
string. -/
def catOk : JVal → Bool
  | .obj kvs =>
    match lookupKV kvs "category" with
    | none => true
    | some (.str _) => true
    | some _ => false
  | _ => false

/-- The point is an object whose `value`, when present, converts under
`float(...)` (a JSON number or boolean). -/
def valOk : JVal → Bool
  | .obj kvs =>
    match lookupKV kvs "value" with
    | none => true
    | some (.num _) => true
    | some (.bool _) => true
    | some _ => false
  | _ => false

/-- A well-typed data point: the duck-typing domain of the pipeline. -/
def goodPoint (j : JVal) : Bool := catOk j && valOk j

/-- The string category of a point, when it is an object with a string
`category` value. -/
def catSpec : JVal → Option String
  | .obj kvs =>
    match lookupKV kvs "category" with
    | some (.str s) => some s
    | _ => none
  | _ => none

/-- The categories the validation pass collects, as a pure function. -/
def catListOf (pts : List JVal) : List String := pts.filterMap catSpec

/-- The numeric value of a point under `float(...)`. -/
def valSpec : JVal → Option ℚ
  | .obj kvs =>
    match lookupKV kvs "value" with
    | some (.num q) => some q
    | some (.bool b) => some (if b then 1 else 0)
    | _ => none
  | _ => none

/-- How many points carry both keys. -/
def countBoth (pts : List JVal) : ℕ := (pts.filter bothKeys).length

/-- The history rows one `store_new_data_in_db` call produces for the
points carrying both keys, with ids from `id0` and timestamp `clk`. -/
def rowsOf (m : String) (clk : ℕ) (id0 : ℕ) : List JVal → List HistoryRow
  | [] => []
  | j :: rest =>
    if bothKeys j then
      { id := id0, metric_name := m, category := (catSpec j).getD "",
        value := (valSpec j).getD 0, extracted_at := clk } ::
        rowsOf m clk (id0 + 1) rest
    else rowsOf m clk id0 rest

theorem rowsOf_length (m : String) (clk : ℕ) :
    ∀ (pts : List JVal) (id0 : ℕ),
      (rowsOf m clk id0 pts).length = countBoth pts := by
  intro pts
  induction pts with
  | nil => intro id0; simp [rowsOf, countBoth]
  | cons j rest ih =>
    intro id0
    by_cases h : bothKeys j = true
    · simp [rowsOf, h, countBoth, List.filter, ih]
    · simp only [Bool.not_eq_true] at h
      simp [rowsOf, h, countBoth, List.filter, ih]

theorem catsOf_eq (pts : List JVal) (h : ∀ p ∈ pts, catOk p = true) :
    catsOf pts = .ok (catListOf pts) := by
  induction pts with
  | nil => rfl
  | cons p rest ih =>
    have hp : catOk p = true := h p (List.mem_cons_self _ _)
    have hrest := ih (fun q hq => h q (List.mem_cons_of_mem _ hq))
    match p, hp with
    | .obj kvs, hp =>
      unfold catsOf catOfItem
      rw [hrest]
      unfold catOk at hp
      match hlk : lookupKV kvs "category" with
      | none => simp [hlk, catListOf, catSpec]
      | some (.str s) => simp [hlk, catListOf, catSpec]
      | some (.null) => simp [catOk, hlk] at hp
      | some (.bool b) => simp [catOk, hlk] at hp
      | some (.num q) => simp [catOk, hlk] at hp
      | some (.arr xs) => simp [catOk, hlk] at hp
      | some (.obj kvs2) => simp [catOk, hlk] at hp

theorem addPoint_eq (m : String) (p : JVal) (s : Session)
    (h : goodPoint p = true) :
    addPoint m p s =
      .ok (if bothKeys p then
             s.add m ((catSpec p).getD "") ((valSpec p).getD 0)
           else s) := by
  unfold goodPoint at h
  rw [Bool.and_eq_true] at h
  rcases h with ⟨hc, hv⟩
  match p, hc, hv with
  | .obj kvs, hc, hv =>
    match hlc : lookupKV kvs "category" with
    | none =>
      simp [addPoint, keyIn, bothKeys, hasKeyB, hlc]
    | some (.str c) =>
      match hlv : lookupKV kvs "value" with
      | none =>
        simp [addPoint, keyIn, bothKeys, hasKeyB, hlc, hlv]
      | some (.num q) =>
        simp [addPoint, keyIn, pyIndexStr, pyIndexFloat, pyFloat,
              bothKeys, hasKeyB, catSpec, valSpec, hlc, hlv]
      | some (.bool b) =>
        simp [addPoint, keyIn, pyIndexStr, pyIndexFloat, pyFloat,
              bothKeys, hasKeyB, catSpec, valSpec, hlc, hlv]
      | some (.str t) => simp [valOk, hlv] at hv
      | some .null => simp [valOk, hlv] at hv
      | some (.arr xs) => simp [valOk, hlv] at hv
      | some (.obj kvs2) => simp [valOk, hlv] at hv
    | some .null => simp [catOk, hlc] at hc
    | some (.bool b) => simp [catOk, hlc] at hc
    | some (.num q) => simp [catOk, hlc] at hc
    | some (.arr xs) => simp [catOk, hlc] at hc
    | some (.obj kvs2) => simp [catOk, hlc] at hc

theorem storeLoop_eq (m : String) :
    ∀ (pts : List JVal) (s : Session), (∀ p ∈ pts, goodPoint p = true) →
      storeLoop pts m s =
        .ok { s with pending := s.pending ++ rowsOf m s.clock s.next_id pts
                     next_id := s.next_id + countBoth pts } := by
  intro pts
  induction pts with
  | nil => intro s _; simp [storeLoop, rowsOf, countBoth]
  | cons p rest ih =>
    intro s h
    have hp := h p (List.mem_cons_self _ _)
    have hrest : ∀ q ∈ rest, goodPoint q = true :=
      fun q hq => h q (List.mem_cons_of_mem _ hq)
    unfold storeLoop
    rw [addPoint_eq m p s hp]
    by_cases hb : bothKeys p = true
    · rw [if_pos hb]
      show storeLoop rest m (s.add m ((catSpec p).getD "") ((valSpec p).getD 0)) = _
      rw [ih _ hrest]
      simp [Session.add, rowsOf, hb, countBoth, List.filter_cons,
        List.append_assoc, Session.mk.injEq]
      omega
    · simp only [Bool.not_eq_true] at hb
      rw [if_neg (by simp [hb])]
      show storeLoop rest m s = _
      rw [ih _ hrest]
      simp [rowsOf, hb, countBoth, List.filter_cons]

/-- One `store_new_data_in_db` call on well-typed points: appends exactly
the rows of the both-key points after the previously pending ones, clears
pending, commits once, advances the transaction clock. -/
theorem store_eq (m : String) (pts : List JVal) (s : Session)
    (h : ∀ p ∈ pts, goodPoint p = true) :
    store_new_data_in_db pts m s =
      .ok { committed := s.committed ++ (s.pending ++ rowsOf m s.clock s.next_id pts)
            pending := []
            commits := s.commits + 1
            next_id := s.next_id + countBoth pts
            clock := s.clock + 1 } := by
  unfold store_new_data_in_db
  rw [storeLoop_eq m pts s h]
  rfl

/-- Every row `addPoint` can produce carries the metric name it was called
with. -/
theorem addPoint_metric (m : String) (p : JVal) (s t : Session)
    (h : addPoint m p s = .ok t) :
    t.committed = s.committed ∧ t.clock = s.clock ∧
      ∀ row ∈ t.pending, row ∈ s.pending ∨ row.metric_name = m := by
  unfold addPoint at h
  split at h
  · exact absurd h (by simp)
  · cases h; exact ⟨rfl, rfl, fun row hr => Or.inl hr⟩
  · split at h
    · exact absurd h (by simp)
    · cases h; exact ⟨rfl, rfl, fun row hr => Or.inl hr⟩
    · split at h
      · exact absurd h (by simp)
      · split at h
        · exact absurd h (by simp)
        · cases h
          refine ⟨rfl, rfl, fun row hr => ?_⟩
          simp only [Session.add, List.mem_append, List.mem_singleton] at hr
          rcases hr with hr | hr
          · exact Or.inl hr
          · subst hr; exact Or.inr rfl

theorem storeLoop_metric (m : String) :
    ∀ (pts : List JVal) (s t : Session), storeLoop pts m s = .ok t →
      t.committed = s.committed ∧ t.clock = s.clock ∧
        ∀ row ∈ t.pending, row ∈ s.pending ∨ row.metric_name = m := by
  intro pts
  induction pts with
  | nil =>
    intro s t h
    cases h
    exact ⟨rfl, rfl, fun row hr => Or.inl hr⟩
  | cons p rest ih =>
    intro s t h
    unfold storeLoop at h
    match hp : addPoint m p s with
    | .error e => rw [hp] at h; exact absurd h (by simp)
    | .ok s' =>
      rw [hp] at h
      obtain ⟨hc1, hk1, hm1⟩ := addPoint_metric m p s s' hp
      obtain ⟨hc2, hk2, hm2⟩ := ih s' t h
      refine ⟨hc2.trans hc1, hk2.trans hk1, fun row hr => ?_⟩
      rcases hm2 row hr with hr' | hr'
      · exact hm1 row hr'
      · exact Or.inr hr'

/-- Every row a `store_new_data_in_db` call adds to the committed table
carries the metric name it was called with. -/
theorem store_metric (m : String) (pts : List JVal) (s t : Session)
    (h : store_new_data_in_db pts m s = .ok t) :
    ∀ row ∈ t.committed,
      row ∈ s.committed ∨ row ∈ s.pending ∨ row.metric_name = m := by
  unfold store_new_data_in_db at h
  match hl : storeLoop pts m s with
  | .error e => rw [hl] at h; exact absurd h (by simp)
  | .ok s' =>
    rw [hl] at h
    cases h
    obtain ⟨hc, _, hm⟩ := storeLoop_metric m pts s s' hl
    intro row hr
    simp only [Session.commit, List.mem_append] at hr
    rcases hr with hr | hr
    · rw [hc] at hr; exact Or.inl hr
    · rcases hm row hr with hr' | hr'
      · exact Or.inr (Or.inl hr')
      · exact Or.inr (Or.inr hr')

/-- The session state after the single `store_new_data_in_db` call the
validator performs: the rows of the both-key points are appended to the
committed table, one commit is counted, the transaction clock advances. -/
def storedSession (pts : List JVal) (s : Session) : Session :=
  { committed := s.committed ++ rowsOf metric_name s.clock s.next_id pts
    pending := []
    commits := s.commits + 1
    next_id := s.next_id + countBoth pts
    clock := s.clock + 1 }

theorem catListOf_subset_catOk (pts : List JVal)
    (h2 : ∀ p ∈ pts, goodPoint p = true) : ∀ p ∈ pts, catOk p = true := by
  intro p hp
  have := h2 p hp
  unfold goodPoint at this
  rw [Bool.and_eq_true] at this
  exact this.1

/-- The validator on a record with well-typed, categorized extracted data:
a single case split on whether matching history exists and, when it does,
on the outcome of the second gateway call. -/
theorem validator_cases (gw : GatewayResult) (kvs : List (String × JVal))
    (pts : List JVal) (s : Session)
    (h1 : lookupKV kvs "extracted_data" = some (JVal.arr pts))
    (h2 : ∀ p ∈ pts, goodPoint p = true)
    (h3 : ¬(catListOf pts).isEmpty = true)
    (h5 : s.pending = []) :
    get_validated_insights gw (JVal.obj kvs) s =
      if (matchingHistory (catListOf pts) s).isEmpty then
        .ok (JVal.obj kvs, storedSession pts s)
      else
        match gw with
        | .parsed j => .ok (j, storedSession pts s)
        | _ => .ok (JVal.obj kvs, storedSession pts s) := by
  have hcat := catListOf_subset_catOk pts h2
  have hpts : pts ≠ [] := by
    intro hnil
    subst hnil
    simp [catListOf] at h3
  have hne : pts.isEmpty = false := by
    simpa using hpts
  have hc3 : (catListOf pts).isEmpty = false := by
    simpa using h3
  have hstore := store_eq metric_name pts s h2
  simp only [get_validated_insights, dictGet, h1, Option.getD_some, truthy,
    asList, hne, Bool.not_false, catsOf_eq pts hcat, hc3, Bool.false_eq_true,
    if_false]
  by_cases hh : (matchingHistory (catListOf pts) s).isEmpty
  · rw [if_pos hh, if_pos hh, hstore]
    simp [storedSession, h5]
  · rw [if_neg hh, if_neg hh]
    cases gw with
    | callError => rw [hstore]; simp [storedSession, h5]
    | badJson => rw [hstore]; simp [storedSession, h5]
    | parsed j => rw [hstore]; simp [storedSession, h5]

/-- Claim C1: when the record has categorized extracted data, matching
historical rows exist for the constant metric name, and the second Model
Gateway call returns text that parses as JSON, the Validator returns that
parsed refinement (not the initial record), and the rows for the original
extracted data points are written to the store before returning. -/
theorem validator_returns_refinement_and_stores (j : JVal)
    (kvs : List (String × JVal)) (pts : List JVal) (s : Session)
    (h1 : lookupKV kvs "extracted_data" = some (JVal.arr pts))
    (h2 : ∀ p ∈ pts, goodPoint p = true)
    (h4 : matchingHistory (catListOf pts) s ≠ [])
    (h5 : s.pending = []) :
    get_validated_insights (.parsed j) (JVal.obj kvs) s =
      .ok (j, storedSession pts s) := by
  have h3 : ¬(catListOf pts).isEmpty = true := by
    intro hc
    apply h4
    have hnil : catListOf pts = [] := by simpa using hc
    rw [hnil]
    unfold matchingHistory
    simp
  rw [validator_cases (.parsed j) kvs pts s h1 h2 h3 h5,
    if_neg (by simpa using h4)]

/-- Claim C2: when matching historical rows exist but the second Gateway
call raises or its text is not valid JSON, the Validator returns the
original record, still performs the same store writes, and surfaces no
failure (the result is an `ok`, not an exception). -/
theorem validator_fallback_on_gateway_failure (gw : GatewayResult)
    (kvs : List (String × JVal)) (pts : List JVal) (s : Session)
    (hgw : gw = .callError ∨ gw = .badJson)
    (h1 : lookupKV kvs "extracted_data" = some (JVal.arr pts))
    (h2 : ∀ p ∈ pts, goodPoint p = true)
    (h4 : matchingHistory (catListOf pts) s ≠ [])
    (h5 : s.pending = []) :
    get_validated_insights gw (JVal.obj kvs) s =
      .ok (JVal.obj kvs, storedSession pts s) := by
  have h3 : ¬(catListOf pts).isEmpty = true := by
    intro hc
    apply h4
    have hnil : catListOf pts = [] := by simpa using hc
    rw [hnil]
    unfold matchingHistory
    simp
  rw [validator_cases gw kvs pts s h1 h2 h3 h5, if_neg (by simpa using h4)]
  rcases hgw with rfl | rfl <;> rfl

/-- Claim C3: a record whose `extracted_data` is empty, or whose data
points all lack a `category` key, is returned unchanged with no store
interaction at all (the session is untouched). -/
theorem validator_skips_without_categorized_data (gw : GatewayResult)
    (kvs : List (String × JVal)) (s : Session)
    (h : lookupKV kvs "extracted_data" = some (JVal.arr []) ∨
         ∃ pts, lookupKV kvs "extracted_data" = some (JVal.arr pts) ∧
           ∀ p ∈ pts, ∃ pkvs, p = JVal.obj pkvs ∧
             lookupKV pkvs "category" = none) :
    get_validated_insights gw (JVal.obj kvs) s = .ok (JVal.obj kvs, s) := by
  rcases h with h1 | ⟨pts, h1, h2⟩
  · simp [get_validated_insights, dictGet, h1, truthy]
  · have hcat : ∀ p ∈ pts, catOk p = true := by
      intro p hp
      obtain ⟨pkvs, rfl, hnone⟩ := h2 p hp
      simp [catOk, hnone]
    have hspec : catListOf pts = [] := by
      unfold catListOf
      apply List.filterMap_eq_nil_iff.mpr
      intro p hp
      obtain ⟨pkvs, rfl, hnone⟩ := h2 p hp
      simp [catSpec, hnone]
    rcases pts with _ | ⟨p, rest⟩
    · simp [get_validated_insights, dictGet, h1, truthy]
    · simp [get_validated_insights, dictGet, h1, truthy, asList,
        catsOf_eq _ hcat, hspec]

/-- Claim C4: with categorized extracted data but no matching historical
rows, the Validator returns the input unchanged, the result does not
depend on the second-gateway oracle (no second call is made), and exactly
one row per both-key data point is written. -/
theorem validator_no_history_stores_and_returns_initial (gw : GatewayResult)
    (kvs : List (String × JVal)) (pts : List JVal) (s : Session)
    (h1 : lookupKV kvs "extracted_data" = some (JVal.arr pts))
    (h2 : ∀ p ∈ pts, goodPoint p = true)
    (h3 : ¬(catListOf pts).isEmpty = true)
    (h4 : matchingHistory (catListOf pts) s = [])
    (h5 : s.pending = []) :
    get_validated_insights gw (JVal.obj kvs) s =
        .ok (JVal.obj kvs, storedSession pts s) ∧
      (storedSession pts s).committed =
        s.committed ++ rowsOf metric_name s.clock s.next_id pts ∧
      (rowsOf metric_name s.clock s.next_id pts).length = countBoth pts := by
  refine ⟨?_, rfl, rowsOf_length metric_name s.clock pts s.next_id⟩
  rw [validator_cases gw kvs pts s h1 h2 h3 h5, if_pos (by simp [h4])]

/-- Claim C5: the persistence helper inserts exactly one row per data
point carrying both a `category` and a `value` key, skips the others
without raising, and issues a single commit after all inserts. -/
theorem store_one_row_per_complete_point_single_commit (pts : List JVal)
    (m : String) (s : Session)
    (h : ∀ p ∈ pts, goodPoint p = true)
    (h5 : s.pending = []) :
    store_new_data_in_db pts m s =
        .ok { committed := s.committed ++ rowsOf m s.clock s.next_id pts
              pending := []
              commits := s.commits + 1
              next_id := s.next_id + countBoth pts
              clock := s.clock + 1 } ∧
      (rowsOf m s.clock s.next_id pts).length =
        (pts.filter bothKeys).length := by
  refine ⟨?_, rowsOf_length m s.clock pts s.next_id⟩
  rw [store_eq m pts s h]
  simp [h5]

/-- When no committed row can match the historical lookup, the validator
never consults the second-gateway oracle: its result is the same for every
oracle. -/
theorem validator_gw_irrelevant (initial : JVal) (s : Session)
    (hmh : ∀ cats, matchingHistory cats s = []) (gw₁ gw₂ : GatewayResult) :
    get_validated_insights gw₁ initial s =
      get_validated_insights gw₂ initial s := by
  suffices h : ∀ gw, get_validated_insights gw initial s =
      get_validated_insights GatewayResult.callError initial s by
    rw [h gw₁, h gw₂]
  intro gw
  unfold get_validated_insights
  match hd : dictGet initial "extracted_data" (JVal.arr []) with
  | .error e => simp only [hd]
  | .ok v =>
    simp only [hd]
    by_cases ht : truthy v = false
    · rw [if_pos ht, if_pos ht]
    · rw [if_neg ht, if_neg ht]
      match hl : asList v with
      | .error e => simp only [hl]
      | .ok pts =>
        simp only [hl]
        match hc : catsOf pts with
        | .error e => simp only [hc]
        | .ok cats =>
          simp only [hc]
          by_cases hce : cats.isEmpty = true
          · rw [if_pos hce, if_pos hce]
          · rw [if_neg hce, if_neg hce]
            rw [hmh cats]
            simp

/-- Claim C6: every row the Validator ever writes carries the single
constant metric name, and the historical lookup filters on that same
constant: committed rows with any other metric name never change the
Validator's behaviour (in particular they never trigger the second
gateway call). -/
theorem single_metric_bucket (s : Session) (h5 : s.pending = []) :
    (∀ (gw : GatewayResult) (initial r : JVal) (s' : Session),
        get_validated_insights gw initial s = .ok (r, s') →
        ∀ row ∈ s'.committed,
          row ∈ s.committed ∨ row.metric_name = metric_name) ∧
    (∀ (initial : JVal) (gw₁ gw₂ : GatewayResult),
        (∀ row ∈ s.committed, row.metric_name ≠ metric_name) →
        get_validated_insights gw₁ initial s =
          get_validated_insights gw₂ initial s) := by
  constructor
  · intro gw initial r s' hok row hrow
    have hstore : ∀ (pts : List JVal) (t : Session),
        store_new_data_in_db pts metric_name s = .ok t →
        row ∈ t.committed →
        row ∈ s.committed ∨ row.metric_name = metric_name := by
      intro pts t hpts hr
      rcases store_metric metric_name pts s t hpts row hr with h | h | h
      · exact Or.inl h
      · rw [h5] at h; exact absurd h (List.not_mem_nil row)
      · exact Or.inr h
    unfold get_validated_insights at hok
    match hd : dictGet initial "extracted_data" (JVal.arr []) with
    | .error e => simp only [hd] at hok; exact absurd hok (by simp)
    | .ok v =>
      simp only [hd] at hok
      by_cases ht : truthy v = false
      · rw [if_pos ht] at hok
        rw [Except.ok.injEq, Prod.mk.injEq] at hok
        rw [← hok.2] at hrow
        exact Or.inl hrow
      · rw [if_neg ht] at hok
        match hl : asList v with
        | .error e => simp only [hl] at hok; exact absurd hok (by simp)
        | .ok pts =>
          simp only [hl] at hok
          match hc : catsOf pts with
          | .error e => simp only [hc] at hok; exact absurd hok (by simp)
          | .ok cats =>
            simp only [hc] at hok
            by_cases hce : cats.isEmpty = true
            · rw [if_pos hce] at hok
              rw [Except.ok.injEq, Prod.mk.injEq] at hok
              rw [← hok.2] at hrow
              exact Or.inl hrow
            · rw [if_neg hce] at hok
              by_cases hh : (matchingHistory cats s).isEmpty = true
              · rw [if_pos hh] at hok
                match hst : store_new_data_in_db pts metric_name s with
                | .error e => simp only [hst] at hok; exact absurd hok (by simp)
                | .ok t =>
                  simp only [hst] at hok
                  rw [Except.ok.injEq, Prod.mk.injEq] at hok
                  rw [← hok.2] at hrow
                  exact hstore pts t hst hrow
              · rw [if_neg hh] at hok
                match gw, hok with
                | .parsed j, hok =>
                  match hst : store_new_data_in_db pts metric_name s with
                  | .error e =>
                    simp only [hst] at hok
                    exact absurd hok (by simp)
                  | .ok t =>
                    simp only [hst] at hok
                    rw [Except.ok.injEq, Prod.mk.injEq] at hok
                    rw [← hok.2] at hrow
                    exact hstore pts t hst hrow
                | .callError, hok =>
                  match hst : store_new_data_in_db pts metric_name s with
                  | .error e => simp only [hst] at hok; exact absurd hok (by simp)
                  | .ok t =>
                    simp only [hst] at hok
                    rw [Except.ok.injEq, Prod.mk.injEq] at hok
                    rw [← hok.2] at hrow
                    exact hstore pts t hst hrow
                | .badJson, hok =>
                  match hst : store_new_data_in_db pts metric_name s with
                  | .error e => simp only [hst] at hok; exact absurd hok (by simp)
                  | .ok t =>
                    simp only [hst] at hok
                    rw [Except.ok.injEq, Prod.mk.injEq] at hok
                    rw [← hok.2] at hrow
                    exact hstore pts t hst hrow
  · intro initial gw₁ gw₂ hno
    have hmh : ∀ cats, matchingHistory cats s = [] := by
      intro cats
      unfold matchingHistory
      apply List.filter_eq_nil_iff.mpr
      intro row hrow
      simp only [Bool.and_eq_true, beq_iff_eq, not_and]
      intro hm _
      exact hno row hrow hm
    exact validator_gw_irrelevant initial s hmh gw₁ gw₂

/-- Claim C7: during the extraction pass, a failed Gateway call and a
response that does not parse as JSON are both fatal: each analyze
endpoint returns HTTP 500, the session is untouched (no store write), and
the Validator is never invoked — the outcome is the same for every
validation-pass oracle `gw2`. -/
theorem extraction_failures_fatal (gw2 : GatewayResult) (s : Session) :
    analyze_uploaded_graph .callError gw2 s =
        (.error { status := 500, detail := "Gemini API call failed" }, s) ∧
      analyze_uploaded_graph .badJson gw2 s =
        (.error { status := 500, detail := "Failed to parse Gemini response" }, s) ∧
      analyze_screen_capture .callError gw2 s =
        (.error { status := 500, detail := "Gemini API call failed" }, s) ∧
      analyze_screen_capture .badJson gw2 s =
        (.error { status := 500, detail := "Failed to parse Gemini response" }, s) :=
  ⟨rfl, rfl, rfl, rfl⟩

/-- Claim C8: when the second Gateway call returns valid JSON that does
not match the `InsightResponse` shape, the Validator hands that malformed
object through as the final result and the endpoint fails with a server
error while building the response model — the silent fallback covers only
gateway-call and JSON-parse failures. -/
theorem malformed_refinement_surfaces_500 (m : JVal)
    (kvs : List (String × JVal)) (pts : List JVal) (s : Session)
    (h1 : lookupKV kvs "extracted_data" = some (JVal.arr pts))
    (h2 : ∀ p ∈ pts, goodPoint p = true)
    (h4 : matchingHistory (catListOf pts) s ≠ [])
    (h5 : s.pending = [])
    (hm : parseInsightResponse m = none) :
    get_validated_insights (.parsed m) (JVal.obj kvs) s =
        .ok (m, storedSession pts s) ∧
      analyze_uploaded_graph (.parsed (JVal.obj kvs)) (.parsed m) s =
        (.error { status := 500, detail := "Internal Server Error" },
         storedSession pts s) := by
  have h3 : ¬(catListOf pts).isEmpty = true := by
    intro hc
    apply h4
    have hnil : catListOf pts = [] := by simpa using hc
    rw [hnil]
    unfold matchingHistory
    simp
  have hv : get_validated_insights (.parsed m) (JVal.obj kvs) s =
      .ok (m, storedSession pts s) := by
    rw [validator_cases (.parsed m) kvs pts s h1 h2 h3 h5,
      if_neg (by simpa using h4)]
  refine ⟨hv, ?_⟩
  unfold analyze_uploaded_graph analyzeCore
  simp only [hv, hm]

/-- Claim C9: the history endpoint returns at most 100 rows, drawn from the
table, ordered most recent first by extraction timestamp, each serialized
as an object with exactly the fields `id`, `metric_name`, `category`,
`value` (a number) and `extracted_at` (the isoformat rendering of the
timestamp). -/
theorem history_endpoint_shape (db : List HistoryRow) :
    ∃ rows : List HistoryRow,
      get_historical_data db = rows.map serializeRow ∧
      rows.length ≤ 100 ∧
      List.Sorted recencyGE rows ∧
      rows.Subperm db ∧
      ∀ r : HistoryRow, ∃ kvs,
        serializeRow r = JVal.obj kvs ∧
        (JVal.obj kvs).objKeys =
          ["id", "metric_name", "category", "value", "extracted_at"] ∧
        lookupKV kvs "value" = some (.num r.value) ∧
        lookupKV kvs "extracted_at" = some (.str (isoformat r.extracted_at)) ∧
        lookupKV kvs "category" = some (.str r.category) := by
  refine ⟨(List.insertionSort recencyGE db).take 100, rfl, ?_, ?_, ?_, ?_⟩
  · calc ((List.insertionSort recencyGE db).take 100).length
        = min 100 (List.insertionSort recencyGE db).length :=
          List.length_take 100 _
      _ ≤ 100 := min_le_left _ _
  · exact List.Pairwise.sublist (List.take_sublist 100 _)
      (List.sorted_insertionSort recencyGE db)
  · exact ((List.take_sublist 100 _).subperm).trans
      (List.perm_insertionSort recencyGE db).subperm
  · intro r
    exact ⟨_, rfl, rfl, rfl, rfl, rfl⟩

/-- A fresh session over an empty history table. -/
def emptySession : Session :=
  { committed := [], pending := [], commits := 0, next_id := 0, clock := 0 }

/-- Claim C10: storing the data point `{category: "Jan", value: 150}`
through the persistence helper and reading it back through the history
listing yields `category == "Jan"` and `value == 150` — the category and
the numeric value round-trip losslessly through storage. -/
theorem roundtrip_category_value :
    ∃ s' : Session,
      store_new_data_in_db
          [JVal.obj [("category", .str "Jan"), ("value", .num 150)]]
          metric_name emptySession = .ok s' ∧
      ∃ kvs, get_historical_data s'.committed = [JVal.obj kvs] ∧
        lookupKV kvs "category" = some (.str "Jan") ∧
        lookupKV kvs "value" = some (.num 150) := by
  exact ⟨_, rfl, _, rfl, rfl, rfl⟩

/-! ### Concrete witnesses -/

/-- A sample extracted data point `{category: "Jan", value: 150}`. -/
def samplePoint : JVal := .obj [("category", .str "Jan"), ("value", .num 150)]

/-- A sample data point missing the `value` key. -/
def partialPoint : JVal := .obj [("category", .str "Feb")]

/-- A sample parsed initial-insights object. -/
def sampleKVs : List (String × JVal) :=
  [("chart_type", .str "Bar Chart"), ("summary", .str "sales rise"),
   ("trends", .arr []), ("anomalies", .arr []),
   ("recommendations", .arr []), ("extracted_data", .arr [samplePoint])]

/-- A stored row matching the sample point's category under the constant
metric name. -/
def sampleRow : HistoryRow :=
  { id := 7, metric_name := "general_metric", category := "Jan",
    value := 100, extracted_at := 3 }

/-- A session whose table holds the matching sample row. -/
def sampleSession : Session :=
  { committed := [sampleRow], pending := [], commits := 1, next_id := 8,
    clock := 4 }

theorem C1_witness :
    get_validated_insights (.parsed (JVal.str "refined"))
        (JVal.obj sampleKVs) sampleSession =
      .ok (JVal.str "refined", storedSession [samplePoint] sampleSession) :=
  validator_returns_refinement_and_stores (JVal.str "refined") sampleKVs
    [samplePoint] sampleSession rfl (by decide) (by decide) rfl

theorem C2_witness :
    get_validated_insights .callError (JVal.obj sampleKVs) sampleSession =
      .ok (JVal.obj sampleKVs, storedSession [samplePoint] sampleSession) :=
  validator_fallback_on_gateway_failure .callError sampleKVs
    [samplePoint] sampleSession (Or.inl rfl) rfl (by decide) (by decide) rfl

theorem C3_witness :
    get_validated_insights .callError
        (JVal.obj [("extracted_data", JVal.arr [])]) sampleSession =
      .ok (JVal.obj [("extracted_data", JVal.arr [])], sampleSession) :=
  validator_skips_without_categorized_data .callError
    [("extracted_data", JVal.arr [])] sampleSession (Or.inl rfl)

theorem C4_witness :
    get_validated_insights .badJson (JVal.obj sampleKVs) emptySession =
        .ok (JVal.obj sampleKVs, storedSession [samplePoint] emptySession) ∧
      (storedSession [samplePoint] emptySession).committed =
        emptySession.committed ++
          rowsOf metric_name emptySession.clock emptySession.next_id
            [samplePoint] ∧
      (rowsOf metric_name emptySession.clock emptySession.next_id
          [samplePoint]).length = countBoth [samplePoint] :=
  validator_no_history_stores_and_returns_initial .badJson sampleKVs
    [samplePoint] emptySession rfl (by decide) (by decide) rfl rfl

theorem C5_witness :
    store_new_data_in_db [samplePoint, partialPoint] metric_name
        emptySession =
        .ok { committed := emptySession.committed ++
                rowsOf metric_name emptySession.clock emptySession.next_id
                  [samplePoint, partialPoint]
              pending := []
              commits := emptySession.commits + 1
              next_id := emptySession.next_id +
                countBoth [samplePoint, partialPoint]
              clock := emptySession.clock + 1 } ∧
      (rowsOf metric_name emptySession.clock emptySession.next_id
          [samplePoint, partialPoint]).length =
        ([samplePoint, partialPoint].filter bothKeys).length :=
  store_one_row_per_complete_point_single_commit
    [samplePoint, partialPoint] metric_name emptySession (by decide) rfl

theorem C6_witness :
    (∀ (gw : GatewayResult) (initial r : JVal) (s' : Session),
        get_validated_insights gw initial sampleSession = .ok (r, s') →
        ∀ row ∈ s'.committed,
          row ∈ sampleSession.committed ∨ row.metric_name = metric_name) ∧
    (∀ (initial : JVal) (gw₁ gw₂ : GatewayResult),
        (∀ row ∈ sampleSession.committed,
            row.metric_name ≠ metric_name) →
        get_validated_insights gw₁ initial sampleSession =
          get_validated_insights gw₂ initial sampleSession) :=
  single_metric_bucket sampleSession rfl

theorem C8_witness :
    get_validated_insights (.parsed (JVal.obj []))
        (JVal.obj sampleKVs) sampleSession =
        .ok (JVal.obj [], storedSession [samplePoint] sampleSession) ∧
      analyze_uploaded_graph (.parsed (JVal.obj sampleKVs))
          (.parsed (JVal.obj [])) sampleSession =
        (.error { status := 500, detail := "Internal Server Error" },
         storedSession [samplePoint] sampleSession) :=
  malformed_refinement_surfaces_500 (JVal.obj []) sampleKVs
    [samplePoint] sampleSession rfl (by decide) (by decide) rfl rfl

end GraphAnalysis
